import Mathlib

/-!
Verification of the hashcsp core (`src/hashcsp/core/`): a shallow embedding of
`csp_generator.py`, `local_scanner.py` and the retry loop of
`remote_fetcher.py`, together with theorems settling the specification claims.

Python dictionaries are modelled as insertion-ordered association lists,
Python strings as Lean `String`, and machine-level SHA-256 arithmetic as `Nat`
with explicit reduction modulo 2^32.
-/

namespace HashCSP

/-- Insertion-ordered string-keyed map, the model of a Python `dict`. -/
structure Dict (α : Type) where
  entries : List (String × α)
deriving DecidableEq

namespace Dict

/-- Lookup in an entry list (first match). -/
def getList? : List (String × α) → String → Option α
  | [], _ => none
  | (k', v) :: rest, k => if k' = k then some v else getList? rest k

/-- `d.get? k` : Python `d.get(k)` / `d[k]` lookup (keys are unique in every
state built by the operations below). -/
def get? (d : Dict α) (k : String) : Option α :=
  getList? d.entries k

/-- Python `d.get(k, dflt)`. -/
def getD (d : Dict α) (k : String) (dflt : α) : α :=
  (d.get? k).getD dflt

/-- Python `k in d`. -/
def contains (d : Dict α) (k : String) : Bool :=
  (d.get? k).isSome

/-- Update an entry list: replace in place if the key exists, else append at
the end. -/
def setList : List (String × α) → String → α → List (String × α)
  | [], k, v => [(k, v)]
  | (k', v') :: rest, k, v =>
      if k' = k then (k', v) :: rest else (k', v') :: setList rest k v

/-- Python `d[k] = v`: replace in place if the key exists, else append at the
end (insertion order preserved). -/
def set (d : Dict α) (k : String) (v : α) : Dict α :=
  ⟨setList d.entries k v⟩

/-- The key list, in insertion order. -/
def keys (d : Dict α) : List String :=
  d.entries.map Prod.fst

end Dict

/-! ### Python string primitives

Faithful models of the string operations the source uses:
`str.strip()`, `str.split(";")`, `str.split()` and `"sep".join(...)`. -/

/-- The whitespace characters recognised by Python `str.strip()` and
`str.split()` (ASCII subset, which covers every string the program builds). -/
def isPySpace (c : Char) : Bool :=
  c = ' ' || c = '\t' || c = '\n' || c = '\r' || c = '\x0b' || c = '\x0c'

/-- Split a character list at every occurrence of `sep`, keeping empty
pieces: the semantics of Python `s.split(sep)` for a one-character `sep`. -/
def splitOnChar (sep : Char) : List Char → List (List Char)
  | [] => [[]]
  | c :: rest =>
      let r := splitOnChar sep rest
      if c = sep then [] :: r
      else
        match r with
        | [] => [[c]]
        | h :: t => (c :: h) :: t

/-- Split a character list at every character satisfying `p`, keeping empty
pieces. -/
def splitOnPred (p : Char → Bool) : List Char → List (List Char)
  | [] => [[]]
  | c :: rest =>
      let r := splitOnPred p rest
      if p c then [] :: r
      else
        match r with
        | [] => [[c]]
        | h :: t => (c :: h) :: t

/-- Python `s.strip()`: drop leading and trailing whitespace. -/
def pyStrip (s : String) : String :=
  ⟨((s.data.dropWhile isPySpace).reverse.dropWhile isPySpace).reverse⟩

/-- Python `s.split(";")`. -/
def pySplitSemicolon (s : String) : List String :=
  (splitOnChar ';' s.data).map (fun l => ⟨l⟩)

/-- Python `s.split()` (no argument): split on whitespace runs, discarding
empty pieces. -/
def pySplitWhitespace (s : String) : List String :=
  ((splitOnPred isPySpace s.data).filter (fun l => l ≠ [])).map (fun l => ⟨l⟩)

/-- Python `sep.join(parts)`. -/
def joinSep (sep : String) : List String → String
  | [] => ""
  | [x] => x
  | x :: xs => x ++ sep ++ joinSep sep xs

/-- One serialized directive clause:
`f"{directive} {' '.join(sources)}"`. -/
def renderPart (p : String × List String) : String :=
  p.1 ++ " " ++ joinSep " " p.2

/-! ### SHA-256 (FIPS 180-4) over byte lists, all arithmetic in `Nat`
reduced modulo 2^32, modelling `hashlib.sha256`. -/

/-- Truncation to a 32-bit word. -/
def w32 (x : Nat) : Nat := x % 4294967296

/-- 32-bit right rotation. -/
def rotr32 (n x : Nat) : Nat :=
  w32 ((x >>> n) ||| (x <<< (32 - n)))

/-- The 64 SHA-256 round constants. -/
def sha256K : List Nat :=
  [1116352408, 1899447441, 3049323471, 3921009573, 961987163,
   1508970993, 2453635748, 2870763221, 3624381080, 310598401,
   607225278, 1426881987, 1925078388, 2162078206, 2614888103,
   3248222580, 3835390401, 4022224774, 264347078, 604807628,
   770255983, 1249150122, 1555081692, 1996064986, 2554220882,
   2821834349, 2952996808, 3210313671, 3336571891, 3584528711,
   113926993, 338241895, 666307205, 773529912, 1294757372,
   1396182291, 1695183700, 1986661051, 2177026350, 2456956037,
   2730485921, 2820302411, 3259730800, 3345764771, 3516065817,
   3600352804, 4094571909, 275423344, 430227734, 506948616,
   659060556, 883997877, 958139571, 1322822218, 1537002063,
   1747873779, 1955562222, 2024104815, 2227730452, 2361852424,
   2428436474, 2756734187, 3204031479, 3329325298]

/-- The SHA-256 initial hash value. -/
def sha256H0 : List Nat :=
  [1779033703, 3144134277, 1013904242, 2773480762, 1359893119,
   2600822924, 528734635, 1541459225]

/-- Big-endian encoding of `n` into `k` bytes. -/
def beBytes (k n : Nat) : List Nat :=
  match k with
  | 0 => []
  | k + 1 => (n >>> (8 * k)) % 256 :: beBytes k n

/-- SHA-256 message padding: `0x80`, zeros to 56 mod 64, then the bit length
in 8 big-endian bytes. -/
def sha256Pad (msg : List Nat) : List Nat :=
  let len := msg.length
  let zeros := (64 + 55 - (len % 64)) % 64
  msg ++ 0x80 :: List.replicate zeros 0 ++ beBytes 8 (8 * len)

/-- Group a byte list into big-endian 32-bit words (4 bytes each). -/
def bytesToWords : List Nat → List Nat
  | b0 :: b1 :: b2 :: b3 :: rest =>
      (((b0 * 256 + b1) * 256 + b2) * 256 + b3) :: bytesToWords rest
  | _ => []

/-- Group a word list into 16-word blocks (fuel-structured recursion; the
fuel `ws.length` always suffices because each step consumes 16 words). -/
def toBlocksAux : Nat → List Nat → List (List Nat)
  | 0, _ => []
  | fuel + 1, ws =>
      if ws.length < 16 then []
      else ws.take 16 :: toBlocksAux fuel (ws.drop 16)

/-- Group a word list into 16-word blocks. -/
def toBlocks (ws : List Nat) : List (List Nat) :=
  toBlocksAux ws.length ws

/-- Extend a 16-word block to the 64-word message schedule. -/
def sha256Schedule (block : List Nat) : Nat → List Nat
  | 0 => block
  | i + 1 =>
      let ws := sha256Schedule block i
      let wa := ws.getD (ws.length - 2) 0
      let wb := ws.getD (ws.length - 7) 0
      let wc := ws.getD (ws.length - 15) 0
      let wd := ws.getD (ws.length - 16) 0
      let s1 := (rotr32 17 wa) ^^^ (rotr32 19 wa) ^^^ (wa >>> 10)
      let s0 := (rotr32 7 wc) ^^^ (rotr32 18 wc) ^^^ (wc >>> 3)
      ws ++ [w32 (s1 + wb + s0 + wd)]

/-- One SHA-256 round: update the eight working variables with constant `k`
and schedule word `w`. -/
def sha256Round (st : List Nat) (kw : Nat × Nat) : List Nat :=
  match st with
  | [a, b, c, d, e, f, g, h] =>
      let s1 := (rotr32 6 e) ^^^ (rotr32 11 e) ^^^ (rotr32 25 e)
      let ch := (e &&& f) ^^^ ((4294967295 - e) &&& g)
      let t1 := w32 (h + s1 + ch + kw.1 + kw.2)
      let s0 := (rotr32 2 a) ^^^ (rotr32 13 a) ^^^ (rotr32 22 a)
      let mj := (a &&& b) ^^^ (a &&& c) ^^^ (b &&& c)
      let t2 := w32 (s0 + mj)
      [w32 (t1 + t2), a, b, c, w32 (d + t1), e, f, g]
  | other => other

/-- Compress one 16-word block into the running hash value. -/
def sha256Compress (hv : List Nat) (block : List Nat) : List Nat :=
  let ws := sha256Schedule block 48
  let st := (sha256K.zip ws).foldl sha256Round hv
  (hv.zip st).map (fun p => w32 (p.1 + p.2))

/-- SHA-256 of a byte list, as the eight final 32-bit hash words. -/
def sha256Words (msg : List Nat) : List Nat :=
  (toBlocks (bytesToWords (sha256Pad msg))).foldl sha256Compress sha256H0

/-- The sixteen lowercase hexadecimal digit characters. -/
def hexChars : List Char :=
  "0123456789abcdef".data

/-- The lowercase hexadecimal digit for `n < 16`. -/
def hexDigit (n : Nat) : Char :=
  hexChars.getD n '0'

/-- Lowercase 8-hex-digit rendering of a 32-bit word. -/
def toHex8 (n : Nat) : List Char :=
  [hexDigit ((n >>> 28) % 16), hexDigit ((n >>> 24) % 16),
   hexDigit ((n >>> 20) % 16), hexDigit ((n >>> 16) % 16),
   hexDigit ((n >>> 12) % 16), hexDigit ((n >>> 8) % 16),
   hexDigit ((n >>> 4) % 16), hexDigit (n % 16)]

/-- Lowercase hexadecimal digest string of a word list:
`hashlib`'s `hexdigest()`. -/
def hexDigest (ws : List Nat) : String :=
  ⟨(ws.map toHex8).flatten⟩

/-- UTF-8 encoding of one character (code point), as bytes. -/
def utf8EncodeChar (c : Char) : List Nat :=
  let n := c.toNat
  if n < 128 then [n]
  else if n < 2048 then
    [192 ||| (n >>> 6), 128 ||| (n &&& 63)]
  else if n < 65536 then
    [224 ||| (n >>> 12), 128 ||| ((n >>> 6) &&& 63), 128 ||| (n &&& 63)]
  else
    [240 ||| (n >>> 18), 128 ||| ((n >>> 12) &&& 63),
     128 ||| ((n >>> 6) &&& 63), 128 ||| (n &&& 63)]

/-- Python `s.encode("utf-8")`, as a byte list. -/
def utf8Bytes (s : String) : List Nat :=
  s.data.flatMap utf8EncodeChar

/-! ### Policy State: `CSPGenerator` from `core/csp_generator.py` -/

/-- The three Hash Buckets: `self.hashes` with its fixed keys
`script-src`, `style-src`, `style-src-attr`. -/
structure Hashes where
  scriptSrc : List String
  styleSrc : List String
  styleSrcAttr : List String
deriving DecidableEq

/-- The Policy State: `CSPGenerator.__init__`'s mutable attributes.  The
`printer` attribute is pure output formatting and carries no state that the
core reads back, so it is not modelled. -/
structure CSPGenerator where
  hashes : Hashes
  directives : Dict (List String)
  stats : Dict Nat
deriving DecidableEq

namespace CSPGenerator

/-- `CSPGenerator.__init__`: empty buckets, empty directive map, the ten
named counters at zero. -/
def init : CSPGenerator where
  hashes := ⟨[], [], []⟩
  directives := ⟨[]⟩
  stats := ⟨[("files_processed", 0), ("files_with_no_inline_scripts", 0),
             ("unique_script_hashes", 0), ("unique_style_hashes", 0),
             ("external_scripts", 0), ("external_styles", 0),
             ("external_images", 0), ("external_fonts", 0),
             ("external_media", 0), ("external_connections", 0)]⟩

/-- `set_default_directives`: overwrite the directive map with the fixed
baseline (insertion order as written in the source). -/
def set_default_directives (g : CSPGenerator) : CSPGenerator :=
  { g with directives :=
      ⟨[("default-src", ["'self'"]), ("script-src", ["'self'"]),
        ("style-src", ["'self'"]), ("style-src-attr", []),
        ("img-src", ["'self'"]), ("font-src", ["'self'"]),
        ("media-src", ["'self'"]), ("connect-src", ["'self'"]),
        ("object-src", ["'none'"]), ("frame-src", ["'self'"]),
        ("worker-src", ["'self'"]), ("manifest-src", ["'self'"])]⟩ }

/-- `compute_hash(content, source)`: `''` sentinel on empty content, else
`'sha256-<hex>'` with the lowercase hex SHA-256 digest of the UTF-8 bytes.
`source` is only logged. -/
def compute_hash (content : String) (_source : String) : String :=
  if content = "" then ""
  else "'sha256-" ++ hexDigest (sha256Words (utf8Bytes content)) ++ "'"

/-- `update_directive(directive, sources)`: no-op on an empty source list,
else replace the directive's sources with the truthy (non-empty) ones. -/
def update_directive (g : CSPGenerator) (directive : String)
    (sources : List String) : CSPGenerator :=
  if sources = [] then g
  else { g with directives :=
          g.directives.set directive (sources.filter (fun s => s ≠ "")) }

/-- The fixed resource-kind → directive table of `add_external_resource`. -/
def directive_map : List (String × String) :=
  [("script", "script-src"), ("stylesheet", "style-src"),
   ("image", "img-src"), ("font", "font-src"), ("media", "media-src"),
   ("fetch", "connect-src"), ("websocket", "connect-src")]

/-- The stat key computed by `add_external_resource` for a known kind. -/
def statKeyFor (resource_type : String) : String :=
  if resource_type = "media" then "external_media"
  else if resource_type = "fetch" ∨ resource_type = "websocket" then
    "external_connections"
  else "external_" ++ resource_type ++ "s"

/-- `add_external_resource(url, resource_type)`: unknown kinds are dropped;
otherwise the URL is appended to the mapped directive if absent
(`setdefault(...).append`) and `stats[stat_key] = stats.get(stat_key, 0) + 1`
runs exactly then. -/
def add_external_resource (g : CSPGenerator) (url resource_type : String) :
    CSPGenerator :=
  match directive_map.lookup resource_type with
  | none => g
  | some directive =>
      if url ∈ g.directives.getD directive [] then g
      else
        let k := statKeyFor resource_type
        { g with
          directives :=
            g.directives.set directive (g.directives.getD directive [] ++ [url])
          stats := g.stats.set k (g.stats.getD k 0 + 1) }

/-- `generate_csp(report)`: set defaults if the directive map is empty, merge
the `script-src` and `style-src` Hash Buckets into the directive map by
`setdefault(...).extend(...)`, render each non-empty directive as
`"<name> <src1> <src2> ..."`, join with `"; "` and append a trailing `";"`
when non-empty.  Returns the mutated state together with the header string
(the `report` flag only prints). -/
def generate_csp (g : CSPGenerator) : CSPGenerator × String :=
  let g := if g.directives.entries = [] then g.set_default_directives else g
  let g := if g.hashes.scriptSrc ≠ [] then
      let d := g.directives.set "script-src"
        (g.directives.getD "script-src" [] ++ g.hashes.scriptSrc)
      { g with directives := d }
    else g
  let g := if g.hashes.styleSrc ≠ [] then
      let d := g.directives.set "style-src"
        (g.directives.getD "style-src" [] ++ g.hashes.styleSrc)
      { g with directives := d }
    else g
  let parts := g.directives.entries.filterMap (fun p =>
    if p.2 = [] then none else some (renderPart p))
  let header := joinSep "; " parts
  let header := if header = "" then header else header ++ ";"
  (g, header)

/-- The body of `_parse_csp`'s loop for one `";"`-separated part: strip it,
skip it when blank, else `directive, *sources = part.split()` and
`directives[directive] = sources` (the `ValueError` branch is unreachable
because a stripped non-blank part always splits into at least one token). -/
def parseStep (acc : Dict (List String)) (part : String) :
    Dict (List String) :=
  let part := pyStrip part
  if part = "" then acc
  else
    match pySplitWhitespace part with
    | [] => acc
    | d :: srcs => acc.set d srcs

/-- `_parse_csp(csp)`: empty string parses to the empty map; otherwise split
on `";"` and fold `parseStep` over the parts. -/
def parse_csp (csp : String) : Dict (List String) :=
  if csp = "" then ⟨[]⟩
  else (pySplitSemicolon csp).foldl parseStep ⟨[]⟩

end CSPGenerator

/-- One Policy State mutation, for stating the sequence invariant over
`update_directive` / `add_external_resource` calls. -/
inductive Op where
  | upd (directive : String) (sources : List String)
  | add (url resource_type : String)
deriving DecidableEq

/-- Apply one mutation to the Policy State. -/
def applyOp (g : CSPGenerator) : Op → CSPGenerator
  | .upd d s => g.update_directive d s
  | .add u t => g.add_external_resource u t

/-! ### Local scanner: `core/local_scanner.py`

`BeautifulSoup` is external, so a successfully parsed HTML document is
modelled by the element lists `scan_html_file` extracts from the soup; a
file whose open/decode/parse raises is modelled as `none`.  Python's direct
`self.csp.directives[key]` indexing can raise `KeyError` (caught by the
surrounding `except`, failing the file), so those lookups are modelled with
`Option` and threaded through `foldlE`. -/

/-- The parsed view of one HTML file: `.string` of each `<script>` without
`src` (`None` when the element has no single string child), `.string` of
each `<style>`, and the `src`/`href` attribute values of
`<script src>`, `<link rel=stylesheet>`, `<img src>` elements. -/
structure Document where
  inlineScripts : List (Option String)
  styles : List (Option String)
  extScripts : List String
  extStyles : List (Option String)
  images : List String
deriving DecidableEq

/-- `stats[k] += 1` (every state reachable from `init` has the keys the
scanner touches, so the `get`-with-default model coincides with Python's
direct indexing there). -/
def bumpStat (g : CSPGenerator) (k : String) : CSPGenerator :=
  { g with stats := g.stats.set k (g.stats.getD k 0 + 1) }

/-- Fold that stops at the first failing step, returning the state at the
failure point: the effect of an exception raised mid-loop and caught by the
enclosing `except`. -/
def foldlE (f : σ → α → Option σ) : σ → List α → Except σ σ
  | s, [] => .ok s
  | s, a :: as =>
      match f s a with
      | none => .error s
      | some s' => foldlE f s' as

/-- Inline `<script>` processing: hash non-blank content and insert the hash
into the `script-src` bucket if new, bumping `unique_script_hashes`. -/
def procInlineScript (g : CSPGenerator) (content? : Option String) :
    CSPGenerator :=
  match content? with
  | none => g
  | some content =>
      if content ≠ "" ∧ pyStrip content ≠ "" then
        let h := CSPGenerator.compute_hash content "file"
        if h ≠ "" ∧ h ∉ g.hashes.scriptSrc then
          bumpStat
            { g with hashes := { g.hashes with scriptSrc := g.hashes.scriptSrc ++ [h] } }
            "unique_script_hashes"
        else g
      else g

/-- Inline `<style>` processing: hash non-blank content and insert the hash
into the `style-src` bucket if new, bumping `unique_style_hashes`. -/
def procInlineStyle (g : CSPGenerator) (content? : Option String) :
    CSPGenerator :=
  match content? with
  | none => g
  | some content =>
      if content ≠ "" ∧ pyStrip content ≠ "" then
        let h := CSPGenerator.compute_hash content "file"
        if h ≠ "" ∧ h ∉ g.hashes.styleSrc then
          bumpStat
            { g with hashes := { g.hashes with styleSrc := g.hashes.styleSrc ++ [h] } }
            "unique_style_hashes"
        else g
      else g

/-- `<script src>` processing: `src and src not in directives["script-src"]`
(direct indexing: `none` models the `KeyError`). -/
def procExtScript (g : CSPGenerator) (src : String) : Option CSPGenerator :=
  if src = "" then some g
  else
    match g.directives.get? "script-src" with
    | none => none
    | some l =>
        if src ∈ l then some g
        else some (bumpStat
          { g with directives := g.directives.set "script-src" (l ++ [src]) }
          "external_scripts")

/-- `<link rel=stylesheet>` processing: `style.get("href")` may be absent. -/
def procExtStyle (g : CSPGenerator) (href? : Option String) :
    Option CSPGenerator :=
  match href? with
  | none => some g
  | some href =>
      if href = "" then some g
      else
        match g.directives.get? "style-src" with
        | none => none
        | some l =>
            if href ∈ l then some g
            else some (bumpStat
              { g with directives := g.directives.set "style-src" (l ++ [href]) }
              "external_styles")

/-- `<img src>` processing. -/
def procImage (g : CSPGenerator) (src : String) : Option CSPGenerator :=
  if src = "" then some g
  else
    match g.directives.get? "img-src" with
    | none => none
    | some l =>
        if src ∈ l then some g
        else some (bumpStat
          { g with directives := g.directives.set "img-src" (l ++ [src]) }
          "external_images")

/-- `LocalScanner.scan_html_file`: `none` (open/decode/parse failure) returns
`False` with the state untouched; a parsed document is processed in source
order — inline scripts, inline styles, external scripts, external styles,
images, the no-inline check (`not inline_scripts and not inline_styles`,
element lists regardless of content), then `files_processed += 1`. -/
def scan_html_file (g : CSPGenerator) (doc? : Option Document) :
    Bool × CSPGenerator :=
  match doc? with
  | none => (false, g)
  | some doc =>
      let g := doc.inlineScripts.foldl procInlineScript g
      let g := doc.styles.foldl procInlineStyle g
      match foldlE procExtScript g doc.extScripts with
      | .error e => (false, e)
      | .ok g =>
      match foldlE procExtStyle g doc.extStyles with
      | .error e => (false, e)
      | .ok g =>
      match foldlE procImage g doc.images with
      | .error e => (false, e)
      | .ok g =>
          let g := if doc.inlineScripts = [] ∧ doc.styles = [] then
              bumpStat g "files_with_no_inline_scripts"
            else g
          (true, bumpStat g "files_processed")

/-- One step of `LocalScanner.__init__`'s loop:
`if key not in self.csp.directives: self.csp.directives[key] = []`. -/
def insertEmptyIfAbsent (d : Dict (List String)) (k : String) :
    Dict (List String) :=
  if d.contains k then d else d.set k []

/-- `LocalScanner.__init__`: insert `script-src`, `style-src`, `img-src`
with empty source lists when absent (loop unrolled in order). -/
def localScannerInit (g : CSPGenerator) : CSPGenerator :=
  let d := insertEmptyIfAbsent g.directives "script-src"
  let d := insertEmptyIfAbsent d "style-src"
  let d := insertEmptyIfAbsent d "img-src"
  { g with directives := d }

/-- `LocalScanner.scan_directory`: scan every HTML file of the walk in
order, ignoring each file's boolean result. -/
def scan_directory (g : CSPGenerator) (docs : List (Option Document)) :
    CSPGenerator :=
  docs.foldl (fun s d => (scan_html_file s d).2) g

/-- `CSPGenerator.validate_csp`: read the stored policy (`none` models an
unreadable file and returns `False` immediately), strip it, construct a
`LocalScanner` (which seeds the three directive keys), scan the directory,
regenerate, and compare the two strings byte-for-byte.  The structured diff
printed on mismatch is output only. -/
def validate_csp (g : CSPGenerator) (fileContent : Option String)
    (docs : List (Option Document)) : Bool × CSPGenerator :=
  match fileContent with
  | none => (false, g)
  | some txt =>
      let existing := pyStrip txt
      let g := localScannerInit g
      let g := scan_directory g docs
      let res := g.generate_csp
      if existing = res.2 then (true, res.1) else (false, res.1)

/-! ### Remote fetcher: the navigation-retry contract of
`RemoteFetcher.fetch_remote_site` (`core/remote_fetcher.py`).

The browser is external: each navigation attempt's outcome (`page.goto`
raising, returning no response, or returning a response whose headers may
hold `content-security-policy`) is an oracle indexed by attempt number.
The post-navigation scraping stages mutate the Policy State but never touch
the retry loop, the attempt count, or the failure result, so they are not
modelled here. -/

/-- Outcome of one `page.goto` attempt. -/
inductive NavOutcome where
  | err
  | noResp
  | resp (cspHeader : Option String)
deriving DecidableEq

/-- The `for attempt in range(retries + 1)` navigation loop, recursing on
the remaining retry budget (`retries - attempt`, so the loop terminates on
failure exactly at `attempt == retries`): returns (attempts made, backoff
sleeps in seconds, and `some header` on navigation success / `none` when
the budget is exhausted).  A failed non-final attempt sleeps
`2 ** attempt` seconds and retries. -/
def navLoopFrom (outcomes : Nat → NavOutcome) :
    Nat → Nat → Nat × List Nat × Option (Option String)
  | 0, attempt =>
      match outcomes attempt with
      | .resp h => (1, [], some h)
      | _ => (1, [], none)
  | rem + 1, attempt =>
      match outcomes attempt with
      | .resp h => (1, [], some h)
      | _ =>
          let r := navLoopFrom outcomes rem (attempt + 1)
          (r.1 + 1, 2 ^ attempt :: r.2.1, r.2.2)

/-- The navigation loop from attempt number `attempt` with total budget
`retries`. -/
def navLoop (outcomes : Nat → NavOutcome) (retries : Nat) (attempt : Nat) :
    Nat × List Nat × Option (Option String) :=
  navLoopFrom outcomes (retries - attempt) attempt

/-- The observable trace of one `fetch_remote_site` call. -/
structure FetchTrace where
  browserLaunched : Bool
  attempts : Nat
  sleeps : List Nat
  result : Bool × Option String
deriving DecidableEq

/-- `re.match(r"^https?://", url)`: the URL starts with `http://` or
`https://`. -/
def matchesHttpScheme (url : String) : Bool :=
  url.data.take 7 = "http://".data || url.data.take 8 = "https://".data

/-- `fetch_remote_site(url, ..., retries, ...)`: a URL not matching
`^https?://` fails fast before any browser launch; otherwise the navigation
loop runs, and exhausting the budget returns `(False, None)` after closing
the browser.  On navigation success the captured site CSP header is
returned with `True`. -/
def fetch_remote_site (url : String) (retries : Nat)
    (outcomes : Nat → NavOutcome) : FetchTrace :=
  if ¬matchesHttpScheme url then
    { browserLaunched := false, attempts := 0, sleeps := [],
      result := (false, none) }
  else
    let r := navLoop outcomes retries 0
    match r.2.2 with
    | none =>
        { browserLaunched := true, attempts := r.1, sleeps := r.2.1,
          result := (false, none) }
    | some h =>
        { browserLaunched := true, attempts := r.1, sleeps := r.2.1,
          result := (true, h) }

/-! ### Predicates used by the claim statements -/

/-- Run a sequence of Policy State mutations in order. -/
def runOps (g : CSPGenerator) (ops : List Op) : CSPGenerator :=
  ops.foldl applyOp g

/-- No directive's source list contains the same token twice. -/
def NoDupDirectives (g : CSPGenerator) : Prop :=
  ∀ d l, g.directives.get? d = some l → l.Nodup

/-- An `update_directive` call whose source list is duplicate-free (an
`add_external_resource` call needs no restriction). -/
def opOk : Op → Prop
  | .upd _ s => s.Nodup
  | .add _ _ => True

instance : DecidablePred opOk := fun op => by
  cases op <;> simp [opOk] <;> infer_instance

/-- Read a stat counter (`stats[k]`, with the keys the scanner touches
present in every reachable state). -/
def statOf (g : CSPGenerator) (k : String) : Nat :=
  g.stats.getD k 0

/-- The three directive keys seeded by `LocalScanner.__init__`, which
`scan_html_file` indexes directly. -/
def DirKeys (g : CSPGenerator) : Prop :=
  g.directives.contains "script-src" = true ∧
  g.directives.contains "style-src" = true ∧
  g.directives.contains "img-src" = true

/-- The keys whose presence Python's direct `directives[...]` / `stats[...]`
indexing relies on inside `scan_html_file`; they are present in every state
a constructed `LocalScanner` ever sees (`LocalScanner.__init__` seeds the
directive keys and `CSPGenerator.__init__` the counters). -/
def ScannerReady (g : CSPGenerator) : Prop :=
  DirKeys g ∧
  g.stats.contains "files_processed" = true ∧
  g.stats.contains "files_with_no_inline_scripts" = true ∧
  g.stats.contains "unique_script_hashes" = true ∧
  g.stats.contains "unique_style_hashes" = true ∧
  g.stats.contains "external_scripts" = true ∧
  g.stats.contains "external_styles" = true ∧
  g.stats.contains "external_images" = true

instance (g : CSPGenerator) : Decidable (DirKeys g) := by
  unfold DirKeys
  infer_instance

instance (g : CSPGenerator) : Decidable (ScannerReady g) := by
  unfold ScannerReady DirKeys
  infer_instance

/-- A serializable token: non-empty, no whitespace, no `";"` — the tokens
for which the wire grammar is injective. -/
def goodToken (t : String) : Bool :=
  t ≠ "" && t.data.all (fun c => !isPySpace c && c ≠ ';')

/-- A Policy State whose serialization round-trips: at least one directive,
distinct directive names, every name and every source token serializable,
every source list non-empty, and the two mergeable Hash Buckets empty. -/
def RoundTrippable (g : CSPGenerator) : Prop :=
  g.directives.entries ≠ [] ∧
  g.directives.keys.Nodup ∧
  (∀ p ∈ g.directives.entries,
    goodToken p.1 = true ∧ p.2 ≠ [] ∧ ∀ t ∈ p.2, goodToken t = true) ∧
  g.hashes.scriptSrc = [] ∧
  g.hashes.styleSrc = []

instance (g : CSPGenerator) : Decidable (RoundTrippable g) := by
  unfold RoundTrippable
  infer_instance

/-! ## Helper lemmas -/

theorem Dict.getList?_setList_self {α : Type} (e : List (String × α))
    (k : String) (v : α) : Dict.getList? (Dict.setList e k v) k = some v := by
  induction e with
  | nil => simp [Dict.setList, Dict.getList?]
  | cons p rest ih =>
      obtain ⟨k', v'⟩ := p
      by_cases h : k' = k
      · simp [Dict.setList, Dict.getList?, h]
      · simpa [Dict.setList, Dict.getList?, h] using ih

theorem Dict.get?_set_self {α : Type} (d : Dict α) (k : String) (v : α) :
    (d.set k v).get? k = some v :=
  Dict.getList?_setList_self d.entries k v

theorem Dict.getList?_setList_ne {α : Type} (e : List (String × α))
    {k k' : String} (v : α) (h : k' ≠ k) :
    Dict.getList? (Dict.setList e k v) k' = Dict.getList? e k' := by
  induction e with
  | nil =>
      have h' : ¬k = k' := fun hk => h hk.symm
      simp [Dict.setList, Dict.getList?, h']
  | cons p rest ih =>
      obtain ⟨k₀, v₀⟩ := p
      by_cases hp : k₀ = k
      · subst hp
        have h' : ¬k₀ = k' := fun hk => h hk.symm
        simp [Dict.setList, Dict.getList?, h']
      · by_cases hp' : k₀ = k'
        · simp [Dict.setList, Dict.getList?, hp, hp', h]
        · simpa [Dict.setList, Dict.getList?, hp, hp'] using ih

theorem Dict.get?_set_ne {α : Type} (d : Dict α) {k k' : String} (v : α)
    (h : k' ≠ k) : (d.set k v).get? k' = d.get? k' :=
  Dict.getList?_setList_ne d.entries v h

theorem Dict.get?_set_cases {α : Type} (d : Dict α) {k k' : String} {v w : α}
    (h : (d.set k v).get? k' = some w) : w = v ∨ d.get? k' = some w := by
  by_cases hk : k' = k
  · subst hk
    rw [Dict.get?_set_self] at h
    exact Or.inl (Option.some.inj h).symm
  · rw [Dict.get?_set_ne d v hk] at h
    exact Or.inr h

theorem Dict.contains_set_self {α : Type} (d : Dict α) (k : String) (v : α) :
    (d.set k v).contains k = true := by
  simp [Dict.contains, Dict.get?_set_self]

theorem Dict.contains_set_of_contains {α : Type} (d : Dict α)
    {k' : String} (k : String) (v : α) (h : d.contains k' = true) :
    (d.set k v).contains k' = true := by
  by_cases hk : k' = k
  · subst hk
    exact Dict.contains_set_self d k' v
  · simpa [Dict.contains, Dict.get?_set_ne d v hk] using h

theorem contains_insertEmptyIfAbsent_self (d : Dict (List String))
    (k : String) : (insertEmptyIfAbsent d k).contains k = true := by
  by_cases h : d.contains k <;>
    simp [insertEmptyIfAbsent, h, Dict.contains_set_self]

theorem contains_insertEmptyIfAbsent_mono (d : Dict (List String))
    {k' : String} (k : String) (h : d.contains k' = true) :
    (insertEmptyIfAbsent d k).contains k' = true := by
  by_cases hc : d.contains k <;>
    simp [insertEmptyIfAbsent, hc, h, Dict.contains_set_of_contains]

theorem noDupDirectives_init : NoDupDirectives CSPGenerator.init := by
  intro d l h
  simp [CSPGenerator.init, Dict.get?, Dict.getList?] at h

theorem noDupDirectives_update (g : CSPGenerator) (d : String)
    (s : List String) (hg : NoDupDirectives g) (hs : s.Nodup) :
    NoDupDirectives (g.update_directive d s) := by
  unfold CSPGenerator.update_directive
  by_cases he : s = []
  · simpa [he] using hg
  · simp only [he, if_false]
    intro d' l h
    rcases Dict.get?_set_cases g.directives h with h' | h'
    · exact h' ▸ hs.filter _
    · exact hg d' l h'

theorem noDupDirectives_add (g : CSPGenerator) (u t : String)
    (hg : NoDupDirectives g) :
    NoDupDirectives (g.add_external_resource u t) := by
  unfold CSPGenerator.add_external_resource
  cases hl : CSPGenerator.directive_map.lookup t with
  | none => simpa using hg
  | some dir =>
      simp only
      by_cases hm : u ∈ g.directives.getD dir []
      · simpa [hm] using hg
      · simp only [hm, if_false]
        intro d' l h
        rcases Dict.get?_set_cases g.directives h with h' | h'
        · subst h'
          cases hget : g.directives.get? dir with
          | none => simp [Dict.getD, hget]
          | some l0 =>
              have hnodup := hg dir l0 hget
              have hu : u ∉ l0 := by
                simpa [Dict.getD, hget] using hm
              simp [Dict.getD, hget, List.nodup_append, hnodup, hu]
        · exact hg d' l h'

theorem noDupDirectives_runOps (ops : List Op) :
    ∀ g : CSPGenerator, NoDupDirectives g → (∀ op ∈ ops, opOk op) →
      NoDupDirectives (runOps g ops) := by
  induction ops with
  | nil => intro g hg _; simpa [runOps] using hg
  | cons op rest ih =>
      intro g hg hops
      have hop := hops op (List.mem_cons_self op rest)
      have hrest : ∀ op' ∈ rest, opOk op' :=
        fun op' h' => hops op' (List.mem_cons_of_mem op h')
      have hstep : NoDupDirectives (applyOp g op) := by
        cases op with
        | upd d s => exact noDupDirectives_update g d s hg hop
        | add u t => exact noDupDirectives_add g u t hg
      simpa [runOps] using ih (applyOp g op) hstep hrest

/-! ## Claim C3 — no-duplication invariant -/

/-- Claim C3 fails as stated: `update_directive` stores its argument list
verbatim (minus empty strings), so a single call with `["a", "a"]` leaves a
directive whose source list holds the same token twice. -/
theorem C3_counterexample :
    (runOps CSPGenerator.init
        [Op.upd "script-src" ["a", "a"]]).directives.get? "script-src" =
      some ["a", "a"] ∧
    ¬ (["a", "a"] : List String).Nodup := by
  exact ⟨rfl, by decide⟩

/-- Claim C3 amended: starting from a fresh Policy State, after any sequence
of `update_directive` / `add_external_resource` calls in which every
`update_directive` call receives a duplicate-free source list, no
directive's source list contains the same token twice
(`add_external_resource` needs no restriction: it appends only absent
URLs). -/
theorem C3_no_duplication (ops : List Op) (h : ∀ op ∈ ops, opOk op) :
    NoDupDirectives (runOps CSPGenerator.init ops) :=
  noDupDirectives_runOps ops CSPGenerator.init noDupDirectives_init h

/-- Witness for C3: a concrete three-call sequence (a seeded directive, an
external script added twice) satisfies the duplicate-free-argument
condition, so the final state has duplicate-free directives. -/
theorem C3_witness :
    NoDupDirectives (runOps CSPGenerator.init
      [Op.upd "script-src" ["'self'", "https://a.example/x.js"],
       Op.add "https://b.example/y.js" "script",
       Op.add "https://b.example/y.js" "script"]) :=
  C3_no_duplication
    [Op.upd "script-src" ["'self'", "https://a.example/x.js"],
     Op.add "https://b.example/y.js" "script",
     Op.add "https://b.example/y.js" "script"]
    (by decide)

theorem sha256Round_length (st : List Nat) (kw : Nat × Nat) :
    (sha256Round st kw).length = st.length := by
  unfold sha256Round
  split <;> simp

theorem foldl_sha256Round_length (l : List (Nat × Nat)) :
    ∀ st : List Nat, (l.foldl sha256Round st).length = st.length := by
  induction l with
  | nil => intro st; rfl
  | cons p rest ih =>
      intro st
      simpa [sha256Round_length] using ih (sha256Round st p)

theorem sha256Compress_length (hv block : List Nat) :
    (sha256Compress hv block).length = hv.length := by
  unfold sha256Compress
  simp [foldl_sha256Round_length]

theorem sha256Words_length (msg : List Nat) :
    (sha256Words msg).length = 8 := by
  unfold sha256Words
  generalize toBlocks (bytesToWords (sha256Pad msg)) = blocks
  have h : ∀ (bs : List (List Nat)) (hv : List Nat),
      (bs.foldl sha256Compress hv).length = hv.length := by
    intro bs
    induction bs with
    | nil => intro hv; rfl
    | cons b rest ih =>
        intro hv
        simpa [sha256Compress_length] using ih (sha256Compress hv b)
  exact h blocks sha256H0

theorem hexDigit_mem (n : Nat) : hexDigit n ∈ hexChars := by
  by_cases h : n < 16
  · interval_cases n <;> decide
  · have h16 : hexChars.length ≤ n := by
      have : 16 ≤ n := Nat.le_of_not_lt h
      simpa [hexChars] using this
    have hnone : hexChars.get? n = none := by
      rw [List.get?_eq_getElem?]
      simpa using List.getElem?_eq_none h16
    simp only [hexDigit, List.getD, hnone, Option.getD_none]
    decide

theorem toHex8_chars (w : Nat) : ∀ c ∈ toHex8 w, c ∈ hexChars := by
  intro c hc
  simp only [toHex8, List.mem_cons, List.not_mem_nil, or_false] at hc
  rcases hc with h | h | h | h | h | h | h | h <;> exact h ▸ hexDigit_mem _

theorem hexDigest_chars (ws : List Nat) :
    ∀ c ∈ (hexDigest ws).data, c ∈ hexChars := by
  intro c hc
  simp only [hexDigest, List.mem_flatten, List.mem_map] at hc
  obtain ⟨l, ⟨w, _, rfl⟩, hcl⟩ := hc
  exact toHex8_chars w c hcl

theorem hexDigest_length (ws : List Nat) :
    (hexDigest ws).length = 8 * ws.length := by
  unfold hexDigest
  induction ws with
  | nil => rfl
  | cons w rest ih =>
      simp only [List.map_cons, List.flatten_cons] at ih ⊢
      simp only [String.length] at ih ⊢
      simp [ih, toHex8]
      ring

/-! ## Claim C6 — hasher contract -/

/-- Claim C6: on non-empty content `compute_hash` returns
`'sha256-<hex>'` where `<hex>` is the 64-character lowercase hexadecimal
SHA-256 digest of the UTF-8 encoding of the content; the result does not
depend on the `source` argument (equal inputs give equal tokens), and
empty content returns the `""` sentinel. -/
theorem C6_hasher_contract (s src src' : String) (h : s ≠ "") :
    CSPGenerator.compute_hash s src =
      "'sha256-" ++ hexDigest (sha256Words (utf8Bytes s)) ++ "'" ∧
    (hexDigest (sha256Words (utf8Bytes s))).length = 64 ∧
    (∀ c ∈ (hexDigest (sha256Words (utf8Bytes s))).data, c ∈ hexChars) ∧
    CSPGenerator.compute_hash s src = CSPGenerator.compute_hash s src' ∧
    CSPGenerator.compute_hash "" src = "" := by
  refine ⟨?_, ?_, hexDigest_chars _, rfl, rfl⟩
  · simp [CSPGenerator.compute_hash, h]
  · rw [hexDigest_length, sha256Words_length]

/-- Witness for C6, checked against the FIPS 180-4 test vector for
`"abc"`. -/
theorem C6_witness :
    (CSPGenerator.compute_hash "abc" "a" =
        "'sha256-" ++ hexDigest (sha256Words (utf8Bytes "abc")) ++ "'" ∧
      (hexDigest (sha256Words (utf8Bytes "abc"))).length = 64 ∧
      (∀ c ∈ (hexDigest (sha256Words (utf8Bytes "abc"))).data,
        c ∈ hexChars) ∧
      CSPGenerator.compute_hash "abc" "a" =
        CSPGenerator.compute_hash "abc" "b" ∧
      CSPGenerator.compute_hash "" "a" = "") ∧
    CSPGenerator.compute_hash "abc" "a" =
      "'sha256-ba7816bf8f01cfea414140de5dae2223b00361a396177a9cb410ff61f20015ad'" :=
  ⟨C6_hasher_contract "abc" "a" "b" (by decide), rfl⟩

/-! ## Claim C5 — validation verdict -/

/-- Claim C5: `validate_csp` returns `True` exactly when the stored policy
file was readable and its stripped content is byte-identical to the
serialization regenerated from the freshly scanned state; an unreadable
file yields `False` (a reported outcome, not an exception). -/
theorem C5_validate_contract (g : CSPGenerator) (fc : Option String)
    (docs : List (Option Document)) :
    (validate_csp g none docs).1 = false ∧
    ((validate_csp g fc docs).1 = true ↔
      ∃ txt, fc = some txt ∧
        pyStrip txt =
          (CSPGenerator.generate_csp
            (scan_directory (localScannerInit g) docs)).2) := by
  refine ⟨rfl, ?_⟩
  cases fc with
  | none => simp [validate_csp]
  | some txt =>
      by_cases h : pyStrip txt =
          (CSPGenerator.generate_csp
            (scan_directory (localScannerInit g) docs)).2 <;>
        simp [validate_csp, h]

theorem navLoopFrom_spec (o : Nat → NavOutcome) :
    ∀ (rem attempt : Nat),
      1 ≤ (navLoopFrom o rem attempt).1 ∧
      (navLoopFrom o rem attempt).1 ≤ rem + 1 ∧
      (navLoopFrom o rem attempt).2.1 =
        (List.range ((navLoopFrom o rem attempt).1 - 1)).map
          (fun i => 2 ^ (attempt + i)) ∧
      ((∀ i, attempt ≤ i → i ≤ attempt + rem → ∀ h, o i ≠ .resp h) →
        (navLoopFrom o rem attempt).2.2 = none ∧
        (navLoopFrom o rem attempt).1 = rem + 1) := by
  intro rem
  induction rem with
  | zero =>
      intro attempt
      cases ho : o attempt with
      | resp h =>
          refine ⟨?_, ?_, ?_, ?_⟩
          · simp [navLoopFrom, ho]
          · simp [navLoopFrom, ho]
          · simp [navLoopFrom, ho]
          · intro hall
            exact absurd ho (hall attempt (Nat.le_refl _) (by omega) h)
      | err => refine ⟨?_, ?_, ?_, ?_⟩ <;> simp [navLoopFrom, ho]
      | noResp => refine ⟨?_, ?_, ?_, ?_⟩ <;> simp [navLoopFrom, ho]
  | succ rem ih =>
      intro attempt
      cases ho : o attempt with
      | resp h =>
          refine ⟨?_, ?_, ?_, ?_⟩
          · simp [navLoopFrom, ho]
          · simp [navLoopFrom, ho]
          · simp [navLoopFrom, ho]
          · intro hall
            exact absurd ho (hall attempt (Nat.le_refl _) (by omega) h)
      | err =>
          obtain ⟨ih1, ih2, ih3, ih4⟩ := ih (attempt + 1)
          refine ⟨?_, ?_, ?_, ?_⟩
          · simp [navLoopFrom, ho]
          · simp only [navLoopFrom, ho]
            omega
          · simp only [navLoopFrom, ho, Nat.add_sub_cancel]
            obtain ⟨m, hm⟩ : ∃ m, (navLoopFrom o rem (attempt + 1)).1 =
                m + 1 := ⟨_, (Nat.succ_pred_eq_of_pos ih1).symm⟩
            rw [ih3, hm]
            simp only [Nat.add_sub_cancel, List.range_succ_eq_map,
              List.map_cons, List.map_map]
            congr 1
            apply List.map_congr_left
            intro a _
            simp only [Function.comp_apply]
            congr 1
            omega
          · intro hall
            have hall' : ∀ i, attempt + 1 ≤ i → i ≤ (attempt + 1) + rem →
                ∀ h, o i ≠ .resp h := by
              intro i h1 h2 h
              exact hall i (by omega) (by omega) h
            obtain ⟨hn, hc⟩ := ih4 hall'
            simp only [navLoopFrom, ho]
            exact ⟨hn, by omega⟩
      | noResp =>
          obtain ⟨ih1, ih2, ih3, ih4⟩ := ih (attempt + 1)
          refine ⟨?_, ?_, ?_, ?_⟩
          · simp [navLoopFrom, ho]
          · simp only [navLoopFrom, ho]
            omega
          · simp only [navLoopFrom, ho, Nat.add_sub_cancel]
            obtain ⟨m, hm⟩ : ∃ m, (navLoopFrom o rem (attempt + 1)).1 =
                m + 1 := ⟨_, (Nat.succ_pred_eq_of_pos ih1).symm⟩
            rw [ih3, hm]
            simp only [Nat.add_sub_cancel, List.range_succ_eq_map,
              List.map_cons, List.map_map]
            congr 1
            apply List.map_congr_left
            intro a _
            simp only [Function.comp_apply]
            congr 1
            omega
          · intro hall
            have hall' : ∀ i, attempt + 1 ≤ i → i ≤ (attempt + 1) + rem →
                ∀ h, o i ≠ .resp h := by
              intro i h1 h2 h
              exact hall i (by omega) (by omega) h
            obtain ⟨hn, hc⟩ := ih4 hall'
            simp only [navLoopFrom, ho]
            exact ⟨hn, by omega⟩

/-! ## Claim C8 — remote fetch failure contract -/

/-- Claim C8: a URL not matching `^https?://` returns `(False, None)` with
no browser launch and no navigation attempt; a valid URL makes at most
`retries + 1` navigation attempts with a `2 ** attempt`-second sleep after
each failed non-final attempt, and when every attempt within the budget
fails or yields no response the call returns `(False, None)` instead of
propagating an exception. -/
theorem C8_fetch_retry_contract (url : String) (retries : Nat)
    (o : Nat → NavOutcome) :
    (¬matchesHttpScheme url = true →
      fetch_remote_site url retries o =
        { browserLaunched := false, attempts := 0, sleeps := [],
          result := (false, none) }) ∧
    (matchesHttpScheme url = true →
      (fetch_remote_site url retries o).browserLaunched = true ∧
      (fetch_remote_site url retries o).attempts ≤ retries + 1 ∧
      (fetch_remote_site url retries o).sleeps =
        (List.range ((fetch_remote_site url retries o).attempts - 1)).map
          (fun i => 2 ^ i) ∧
      ((∀ i, i ≤ retries → ∀ h, o i ≠ NavOutcome.resp h) →
        (fetch_remote_site url retries o).result = (false, none) ∧
        (fetch_remote_site url retries o).attempts = retries + 1)) := by
  constructor
  · intro hinv
    simp [fetch_remote_site, hinv]
  · intro hval
    obtain ⟨h1, h2, h3, h4⟩ := navLoopFrom_spec o retries 0
    have hnav : navLoop o retries 0 = navLoopFrom o retries 0 := by
      simp [navLoop]
    cases hr : (navLoopFrom o retries 0).2.2 with
    | none =>
        have hfetch : fetch_remote_site url retries o =
            { browserLaunched := true,
              attempts := (navLoopFrom o retries 0).1,
              sleeps := (navLoopFrom o retries 0).2.1,
              result := (false, none) } := by
          simp [fetch_remote_site, hval, hnav, hr]
        refine ⟨by rw [hfetch], ?_, ?_, ?_⟩
        · rw [hfetch]
          simpa using h2
        · rw [hfetch, h3]
          simp
        · intro hall
          have := h4 (fun i _ hi h => hall i (by omega) h)
          rw [hfetch]
          exact ⟨rfl, this.2⟩
    | some hd =>
        have hfetch : fetch_remote_site url retries o =
            { browserLaunched := true,
              attempts := (navLoopFrom o retries 0).1,
              sleeps := (navLoopFrom o retries 0).2.1,
              result := (true, hd) } := by
          simp [fetch_remote_site, hval, hnav, hr]
        refine ⟨by rw [hfetch], ?_, ?_, ?_⟩
        · rw [hfetch]
          simpa using h2
        · rw [hfetch, h3]
          simp
        · intro hall
          have := h4 (fun i _ hi h => hall i (by omega) h)
          rw [hr] at this
          exact absurd this.1 (by simp)

/-- Witness for C8: an invalid URL fails fast without a browser; with
`retries = 2` and every attempt raising, the call makes 3 attempts,
sleeps `[1, 2]` seconds, and returns `(False, None)`. -/
theorem C8_witness :
    fetch_remote_site "ftp://example.com" 2 (fun _ => NavOutcome.err) =
      { browserLaunched := false, attempts := 0, sleeps := [],
        result := (false, none) } ∧
    (fetch_remote_site "https://example.com" 2
        (fun _ => NavOutcome.err)).result = (false, none) ∧
    (fetch_remote_site "https://example.com" 2
        (fun _ => NavOutcome.err)).attempts = 3 ∧
    (fetch_remote_site "https://example.com" 2
        (fun _ => NavOutcome.err)).sleeps = [1, 2] :=
  ⟨(C8_fetch_retry_contract "ftp://example.com" 2
      (fun _ => NavOutcome.err)).1 (by decide),
   (((C8_fetch_retry_contract "https://example.com" 2
        (fun _ => NavOutcome.err)).2 (by decide)).2.2.2
      (fun i hi h hc => NavOutcome.noConfusion hc)).1,
   (((C8_fetch_retry_contract "https://example.com" 2
        (fun _ => NavOutcome.err)).2 (by decide)).2.2.2
      (fun i hi h hc => NavOutcome.noConfusion hc)).2,
   by decide⟩

/-! ## Claim C1 — serialization idempotence -/

/-- Claim C1 fails as stated: a Policy State holding one script hash and a
seeded `script-src` directive serializes differently on the second
`generate_csp` call, because the hash merge extends the directive list
again on every call. -/
theorem C1_counterexample :
    (CSPGenerator.generate_csp
      { hashes := ⟨["'sha256-aaa'"], [], []⟩
        directives := ⟨[("script-src", ["'self'"])]⟩
        stats := ⟨[]⟩ }).2 = "script-src 'self' 'sha256-aaa';" ∧
    (CSPGenerator.generate_csp
      (CSPGenerator.generate_csp
        { hashes := ⟨["'sha256-aaa'"], [], []⟩
          directives := ⟨[("script-src", ["'self'"])]⟩
          stats := ⟨[]⟩ }).1).2 =
      "script-src 'self' 'sha256-aaa' 'sha256-aaa';" := by
  constructor <;> rfl

/-- Claim C1 amended: `generate_csp` is idempotent exactly on states whose
`script-src` and `style-src` Hash Buckets are empty — the second call then
returns the same string and leaves the state unchanged.  (When either
bucket is non-empty, every call appends the bucket again, as the
counterexample shows.) -/
theorem C1_idempotent_when_buckets_empty (g : CSPGenerator)
    (h1 : g.hashes.scriptSrc = []) (h2 : g.hashes.styleSrc = []) :
    (CSPGenerator.generate_csp (CSPGenerator.generate_csp g).1).2 =
      (CSPGenerator.generate_csp g).2 ∧
    (CSPGenerator.generate_csp (CSPGenerator.generate_csp g).1).1 =
      (CSPGenerator.generate_csp g).1 := by
  by_cases he : g.directives.entries = []
  · simp [CSPGenerator.generate_csp, CSPGenerator.set_default_directives,
      h1, h2, he]
  · simp [CSPGenerator.generate_csp, h1, h2, he]

/-- Witness for C1: the fresh state has empty buckets and `generate_csp`
is idempotent on it. -/
theorem C1_witness :
    (CSPGenerator.generate_csp
      (CSPGenerator.generate_csp CSPGenerator.init).1).2 =
      (CSPGenerator.generate_csp CSPGenerator.init).2 ∧
    (CSPGenerator.generate_csp
      (CSPGenerator.generate_csp CSPGenerator.init).1).1 =
      (CSPGenerator.generate_csp CSPGenerator.init).1 :=
  C1_idempotent_when_buckets_empty CSPGenerator.init rfl rfl

/-! ## Claim C2 — merge of the three Hash Buckets -/

/-- Claim C2 fails on the code: `generate_csp` merges only the `script-src`
and `style-src` buckets.  On a state whose `style-src-attr` bucket holds
`'sha256-attr'`, the generated policy is exactly `"script-src 'self';"` —
the style-attribute hash token appears nowhere in the output. -/
theorem C2_style_src_attr_never_merged :
    (CSPGenerator.generate_csp
      { hashes := ⟨[], [], ["'sha256-attr'"]⟩
        directives := ⟨[("script-src", ["'self'"])]⟩
        stats := ⟨[]⟩ }).2 = "script-src 'self';" ∧
    (CSPGenerator.generate_csp
      { hashes := ⟨[], [], ["'sha256-attr'"]⟩
        directives := ⟨[("script-src", ["'self'"])]⟩
        stats := ⟨[]⟩ }).1.directives.get? "style-src-attr" = none := by
  constructor <;> rfl

/-! ## Claim C7 — external-resource ingestion -/

/-- Claim C7's failing input: adding a stylesheet URL appends it to
`style-src` but bumps a stray `external_stylesheets` key, leaving the
declared `external_styles` counter (the one the stats dict initializes and
the report prints) at zero. -/
theorem C7_stylesheet_stat_key_mismatch :
    (CSPGenerator.add_external_resource CSPGenerator.init
      "https://cdn.example/app.css" "stylesheet").directives.get?
        "style-src" = some ["https://cdn.example/app.css"] ∧
    (CSPGenerator.add_external_resource CSPGenerator.init
      "https://cdn.example/app.css" "stylesheet").stats.get?
        "external_styles" = some 0 ∧
    (CSPGenerator.add_external_resource CSPGenerator.init
      "https://cdn.example/app.css" "stylesheet").stats.get?
        "external_stylesheets" = some 1 := by
  refine ⟨rfl, rfl, rfl⟩

/-! ## Claim C10 — LocalScanner construction and default suppression -/

/-- Claim C10: constructing a `LocalScanner` on a fresh Policy State inserts
`script-src`, `style-src`, `img-src` with empty source lists (and on any
state leaves all three keys present); a `generate_csp` call on that seeded
state sees a non-empty directive map, installs no defaults, and returns the
empty string, whereas `generate_csp` on the untouched fresh state returns
the full default policy. -/
theorem C10_scanner_init_suppresses_defaults :
    (localScannerInit CSPGenerator.init).directives.entries =
      [("script-src", []), ("style-src", []), ("img-src", [])] ∧
    (∀ g : CSPGenerator,
      ((localScannerInit g).directives.contains "script-src" = true) ∧
      ((localScannerInit g).directives.contains "style-src" = true) ∧
      ((localScannerInit g).directives.contains "img-src" = true)) ∧
    (CSPGenerator.generate_csp (localScannerInit CSPGenerator.init)).2 =
      "" ∧
    (CSPGenerator.generate_csp
      (localScannerInit CSPGenerator.init)).1.directives.entries =
      [("script-src", []), ("style-src", []), ("img-src", [])] ∧
    (CSPGenerator.generate_csp CSPGenerator.init).2 =
      "default-src 'self'; script-src 'self'; style-src 'self'; img-src 'self'; font-src 'self'; media-src 'self'; connect-src 'self'; object-src 'none'; frame-src 'self'; worker-src 'self'; manifest-src 'self';" := by
  refine ⟨rfl, ?_, rfl, rfl, rfl⟩
  intro g
  refine ⟨?_, ?_, ?_⟩
  · exact contains_insertEmptyIfAbsent_mono _ _
      (contains_insertEmptyIfAbsent_mono _ _
        (contains_insertEmptyIfAbsent_self _ _))
  · exact contains_insertEmptyIfAbsent_mono _ _
      (contains_insertEmptyIfAbsent_self _ _)
  · exact contains_insertEmptyIfAbsent_self _ _

theorem statOf_bumpStat_self (g : CSPGenerator) (k : String) :
    statOf (bumpStat g k) k = statOf g k + 1 := by
  simp [statOf, bumpStat, Dict.getD, Dict.get?_set_self]

theorem statOf_bumpStat_ne (g : CSPGenerator) {k k' : String}
    (h : k' ≠ k) : statOf (bumpStat g k) k' = statOf g k' := by
  simp [statOf, bumpStat, Dict.getD, Dict.get?_set_ne _ _ h]

theorem procInlineScript_spec (g : CSPGenerator) (c : Option String) :
    (procInlineScript g c).directives = g.directives ∧
    ∀ k, k ≠ "unique_script_hashes" →
      statOf (procInlineScript g c) k = statOf g k := by
  cases c with
  | none => exact ⟨rfl, fun k _ => rfl⟩
  | some content =>
      simp only [procInlineScript]
      split
      · split
        · exact ⟨rfl, fun k hk => statOf_bumpStat_ne _ hk⟩
        · exact ⟨rfl, fun k _ => rfl⟩
      · exact ⟨rfl, fun k _ => rfl⟩

theorem procInlineStyle_spec (g : CSPGenerator) (c : Option String) :
    (procInlineStyle g c).directives = g.directives ∧
    ∀ k, k ≠ "unique_style_hashes" →
      statOf (procInlineStyle g c) k = statOf g k := by
  cases c with
  | none => exact ⟨rfl, fun k _ => rfl⟩
  | some content =>
      simp only [procInlineStyle]
      split
      · split
        · exact ⟨rfl, fun k hk => statOf_bumpStat_ne _ hk⟩
        · exact ⟨rfl, fun k _ => rfl⟩
      · exact ⟨rfl, fun k _ => rfl⟩

theorem foldl_procInlineScript_spec (l : List (Option String)) :
    ∀ g : CSPGenerator,
      (l.foldl procInlineScript g).directives = g.directives ∧
      ∀ k, k ≠ "unique_script_hashes" →
        statOf (l.foldl procInlineScript g) k = statOf g k := by
  induction l with
  | nil => exact fun g => ⟨rfl, fun k _ => rfl⟩
  | cons c rest ih =>
      intro g
      obtain ⟨hd, hs⟩ := procInlineScript_spec g c
      obtain ⟨ihd, ihs⟩ := ih (procInlineScript g c)
      exact ⟨by simp [ihd, hd],
        fun k hk => by simp [ihs k hk, hs k hk]⟩

theorem foldl_procInlineStyle_spec (l : List (Option String)) :
    ∀ g : CSPGenerator,
      (l.foldl procInlineStyle g).directives = g.directives ∧
      ∀ k, k ≠ "unique_style_hashes" →
        statOf (l.foldl procInlineStyle g) k = statOf g k := by
  induction l with
  | nil => exact fun g => ⟨rfl, fun k _ => rfl⟩
  | cons c rest ih =>
      intro g
      obtain ⟨hd, hs⟩ := procInlineStyle_spec g c
      obtain ⟨ihd, ihs⟩ := ih (procInlineStyle g c)
      exact ⟨by simp [ihd, hd],
        fun k hk => by simp [ihs k hk, hs k hk]⟩

theorem dirKeys_set (g : CSPGenerator) (k : String) (v : List String)
    (h : DirKeys g) :
    DirKeys { g with directives := g.directives.set k v } := by
  obtain ⟨h1, h2, h3⟩ := h
  exact ⟨Dict.contains_set_of_contains _ _ _ h1,
    Dict.contains_set_of_contains _ _ _ h2,
    Dict.contains_set_of_contains _ _ _ h3⟩

theorem procExtScript_step (g : CSPGenerator) (s : String)
    (h : DirKeys g) :
    ∃ g', procExtScript g s = some g' ∧ DirKeys g' ∧
      ∀ k, k ≠ "external_scripts" → statOf g' k = statOf g k := by
  unfold procExtScript
  by_cases hs : s = ""
  · exact ⟨g, by simp [hs], h, fun k _ => rfl⟩
  · obtain ⟨l, hl⟩ := Option.isSome_iff_exists.mp h.1
    rw [hl]
    by_cases hm : s ∈ l
    · exact ⟨g, by simp [hs, hm], h, fun k _ => rfl⟩
    · refine ⟨bumpStat
          { g with directives := g.directives.set "script-src" (l ++ [s]) }
          "external_scripts", by simp [hs, hm], ?_, ?_⟩
      · exact dirKeys_set _ _ _ h
      · exact fun k hk => statOf_bumpStat_ne _ hk

theorem procExtStyle_step (g : CSPGenerator) (s : Option String)
    (h : DirKeys g) :
    ∃ g', procExtStyle g s = some g' ∧ DirKeys g' ∧
      ∀ k, k ≠ "external_styles" → statOf g' k = statOf g k := by
  unfold procExtStyle
  cases s with
  | none => exact ⟨g, rfl, h, fun k _ => rfl⟩
  | some href =>
      by_cases hs : href = ""
      · exact ⟨g, by simp [hs], h, fun k _ => rfl⟩
      · obtain ⟨l, hl⟩ := Option.isSome_iff_exists.mp h.2.1
        rw [hl]
        by_cases hm : href ∈ l
        · exact ⟨g, by simp [hs, hm], h, fun k _ => rfl⟩
        · refine ⟨bumpStat
              { g with directives :=
                  g.directives.set "style-src" (l ++ [href]) }
              "external_styles", by simp [hs, hm], ?_, ?_⟩
          · exact dirKeys_set _ _ _ h
          · exact fun k hk => statOf_bumpStat_ne _ hk

theorem procImage_step (g : CSPGenerator) (s : String)
    (h : DirKeys g) :
    ∃ g', procImage g s = some g' ∧ DirKeys g' ∧
      ∀ k, k ≠ "external_images" → statOf g' k = statOf g k := by
  unfold procImage
  by_cases hs : s = ""
  · exact ⟨g, by simp [hs], h, fun k _ => rfl⟩
  · obtain ⟨l, hl⟩ := Option.isSome_iff_exists.mp h.2.2
    rw [hl]
    by_cases hm : s ∈ l
    · exact ⟨g, by simp [hs, hm], h, fun k _ => rfl⟩
    · refine ⟨bumpStat
          { g with directives := g.directives.set "img-src" (l ++ [s]) }
          "external_images", by simp [hs, hm], ?_, ?_⟩
      · exact dirKeys_set _ _ _ h
      · exact fun k hk => statOf_bumpStat_ne _ hk

theorem foldlE_spec {α : Type} (f : CSPGenerator → α → Option CSPGenerator)
    (statKey : String)
    (hf : ∀ g a, DirKeys g → ∃ g', f g a = some g' ∧ DirKeys g' ∧
      ∀ k, k ≠ statKey → statOf g' k = statOf g k) :
    ∀ (l : List α) (g : CSPGenerator), DirKeys g →
      ∃ g', foldlE f g l = .ok g' ∧ DirKeys g' ∧
        ∀ k, k ≠ statKey → statOf g' k = statOf g k := by
  intro l
  induction l with
  | nil => exact fun g h => ⟨g, rfl, h, fun k _ => rfl⟩
  | cons a rest ih =>
      intro g h
      obtain ⟨g1, hg1, hk1, hs1⟩ := hf g a h
      obtain ⟨g2, hg2, hk2, hs2⟩ := ih g1 hk1
      refine ⟨g2, ?_, hk2, fun k hk => by rw [hs2 k hk, hs1 k hk]⟩
      simp [foldlE, hg1, hg2]

/-! ## Claim C9 — local scan accounting and error containment -/

/-- Claim C9: a file that parses and decodes returns `True`, bumps
`files_processed` by exactly one, and bumps the no-inline counter by one
iff the document has neither an inline `<script>` (no `src`) nor a
`<style>` element; a file that fails to decode or parse returns `False`
with the state untouched, and the directory walk continues past it
unchanged. -/
theorem C9_scan_contract (g : CSPGenerator) (doc : Document)
    (docs1 docs2 : List (Option Document)) (h : ScannerReady g) :
    scan_html_file g none = (false, g) ∧
    (scan_html_file g (some doc)).1 = true ∧
    statOf (scan_html_file g (some doc)).2 "files_processed" =
      statOf g "files_processed" + 1 ∧
    statOf (scan_html_file g (some doc)).2 "files_with_no_inline_scripts" =
      statOf g "files_with_no_inline_scripts" +
        (if doc.inlineScripts = [] ∧ doc.styles = [] then 1 else 0) ∧
    scan_directory g (docs1 ++ none :: docs2) =
      scan_directory g (docs1 ++ docs2) := by
  obtain ⟨h1d, h1s⟩ := foldl_procInlineScript_spec doc.inlineScripts g
  obtain ⟨h2d, h2s⟩ :=
    foldl_procInlineStyle_spec doc.styles
      (doc.inlineScripts.foldl procInlineScript g)
  have hdk2 : DirKeys
      (doc.styles.foldl procInlineStyle
        (doc.inlineScripts.foldl procInlineScript g)) := by
    unfold DirKeys
    rw [h2d, h1d]
    exact h.1
  obtain ⟨g3, hok3, hdk3, hs3⟩ :=
    foldlE_spec procExtScript "external_scripts" procExtScript_step
      doc.extScripts
      (doc.styles.foldl procInlineStyle
        (doc.inlineScripts.foldl procInlineScript g)) hdk2
  obtain ⟨g4, hok4, hdk4, hs4⟩ :=
    foldlE_spec procExtStyle "external_styles" procExtStyle_step
      doc.extStyles g3 hdk3
  obtain ⟨g5, hok5, hdk5, hs5⟩ :=
    foldlE_spec procImage "external_images" procImage_step
      doc.images g4 hdk4
  have chain : ∀ k, k ≠ "unique_script_hashes" →
      k ≠ "unique_style_hashes" → k ≠ "external_scripts" →
      k ≠ "external_styles" → k ≠ "external_images" →
      statOf g5 k = statOf g k := by
    intro k a b c d e
    rw [hs5 k e, hs4 k d, hs3 k c, h2s k b, h1s k a]
  have hscan : scan_html_file g (some doc) =
      (true, bumpStat
        (if doc.inlineScripts = [] ∧ doc.styles = [] then
          bumpStat g5 "files_with_no_inline_scripts"
        else g5) "files_processed") := by
    simp only [scan_html_file]
    simp only [hok3, hok4, hok5]
  refine ⟨rfl, ?_, ?_, ?_, ?_⟩
  · rw [hscan]
  · rw [hscan]
    simp only
    rw [statOf_bumpStat_self]
    by_cases hin : doc.inlineScripts = [] ∧ doc.styles = []
    · rw [if_pos hin,
        statOf_bumpStat_ne _ (by decide :
          ("files_processed" : String) ≠ "files_with_no_inline_scripts"),
        chain _ (by decide) (by decide) (by decide) (by decide) (by decide)]
    · rw [if_neg hin,
        chain _ (by decide) (by decide) (by decide) (by decide) (by decide)]
  · rw [hscan]
    simp only
    rw [statOf_bumpStat_ne _ (by decide :
      ("files_with_no_inline_scripts" : String) ≠ "files_processed")]
    by_cases hin : doc.inlineScripts = [] ∧ doc.styles = []
    · rw [if_pos hin, if_pos hin, statOf_bumpStat_self,
        chain _ (by decide) (by decide) (by decide) (by decide) (by decide)]
    · rw [if_neg hin, if_neg hin,
        chain _ (by decide) (by decide) (by decide) (by decide) (by decide)]
      omega
  · simp [scan_directory, List.foldl_append, scan_html_file]

/-- Witness for C9: the state of a freshly constructed scanner is
scanner-ready, and scanning a document with no elements at all counts it as
processed with the no-inline counter bumped. -/
theorem C9_witness :
    scan_html_file (localScannerInit CSPGenerator.init) none =
      (false, localScannerInit CSPGenerator.init) ∧
    (scan_html_file (localScannerInit CSPGenerator.init)
        (some ⟨[], [], [], [], []⟩)).1 = true ∧
    statOf (scan_html_file (localScannerInit CSPGenerator.init)
        (some ⟨[], [], [], [], []⟩)).2 "files_processed" =
      statOf (localScannerInit CSPGenerator.init) "files_processed" + 1 ∧
    statOf (scan_html_file (localScannerInit CSPGenerator.init)
        (some ⟨[], [], [], [], []⟩)).2 "files_with_no_inline_scripts" =
      statOf (localScannerInit CSPGenerator.init)
          "files_with_no_inline_scripts" +
        (if ([] : List (Option String)) = [] ∧
            ([] : List (Option String)) = [] then 1 else 0) ∧
    scan_directory (localScannerInit CSPGenerator.init)
        ([] ++ none :: []) =
      scan_directory (localScannerInit CSPGenerator.init) ([] ++ []) :=
  C9_scan_contract (localScannerInit CSPGenerator.init)
    ⟨[], [], [], [], []⟩ [] [] (by decide)

theorem splitOnChar_eq_splitOnPred (sep : Char) (l : List Char) :
    splitOnChar sep l = splitOnPred (fun c => c = sep) l := by
  induction l with
  | nil => rfl
  | cons c rest ih =>
      by_cases h : c = sep <;> simp [splitOnChar, splitOnPred, ih, h]

theorem splitOnPred_ne_nil (p : Char → Bool) (l : List Char) :
    splitOnPred p l ≠ [] := by
  cases l with
  | nil => simp [splitOnPred]
  | cons c rest =>
      simp only [splitOnPred]
      by_cases h : p c
      · simp [h]
      · cases hr : splitOnPred p rest <;> simp [h, hr]

theorem splitOnPred_no_sep (p : Char → Bool) (l : List Char)
    (h : ∀ c ∈ l, p c = false) : splitOnPred p l = [l] := by
  induction l with
  | nil => rfl
  | cons c rest ih =>
      have hc : p c = false := h c (List.mem_cons_self c rest)
      have hr := ih (fun c' hc' => h c' (List.mem_cons_of_mem c hc'))
      simp [splitOnPred, hc, hr]

theorem splitOnPred_append (p : Char → Bool) (r : List Char) (c0 : Char)
    (hc : p c0 = true) :
    ∀ l : List Char, (∀ c ∈ l, p c = false) →
      splitOnPred p (l ++ c0 :: r) = l :: splitOnPred p r := by
  intro l
  induction l with
  | nil => intro _; simp [splitOnPred, hc]
  | cons a t ih =>
      intro hl
      have ha : p a = false := hl a (List.mem_cons_self a t)
      have ht := ih (fun c' hc' => hl c' (List.mem_cons_of_mem a hc'))
      simp [List.cons_append, splitOnPred, ht, ha]

theorem splitOnPred_cons_head (p : Char → Bool) (c : Char) (l : List Char)
    (hc : p c = false) (h : List Char) (t : List (List Char))
    (heq : splitOnPred p l = h :: t) :
    splitOnPred p (c :: l) = (c :: h) :: t := by
  simp [splitOnPred, hc, heq]

theorem goodToken_spec (t : String) (h : goodToken t = true) :
    t.data ≠ [] ∧ ∀ c ∈ t.data, isPySpace c = false ∧ ¬c = ';' := by
  unfold goodToken at h
  rw [Bool.and_eq_true] at h
  obtain ⟨h1, h2⟩ := h
  rw [List.all_eq_true] at h2
  have h1' : t ≠ "" := of_decide_eq_true h1
  constructor
  · intro hd
    exact h1' (String.ext_iff.mpr (hd.trans rfl))
  · intro c hc
    have h3 := h2 c hc
    rw [Bool.and_eq_true] at h3
    obtain ⟨ha, hb⟩ := h3
    exact ⟨by simpa using ha, by simpa using hb⟩

theorem renderPart_data (p : String × List String) :
    (renderPart p).data = p.1.data ++ ' ' :: (joinSep " " p.2).data := by
  show (p.1 ++ " " ++ joinSep " " p.2).data = _
  rw [String.data_append, String.data_append]
  simp

theorem joinSpace_chars (srcs : List String) :
    ∀ c ∈ (joinSep " " srcs).data, c = ' ' ∨ ∃ t ∈ srcs, c ∈ t.data := by
  induction srcs with
  | nil => simp [joinSep]
  | cons t rest ih =>
      cases rest with
      | nil =>
          intro c hc
          exact Or.inr ⟨t, by simp, by simpa [joinSep] using hc⟩
      | cons u us =>
          intro c hc
          rw [show joinSep " " (t :: u :: us) =
                t ++ " " ++ joinSep " " (u :: us) from rfl,
            String.data_append, String.data_append] at hc
          simp only [List.mem_append] at hc
          rcases hc with (hc | hc) | hc
          · exact Or.inr ⟨t, by simp, hc⟩
          · left
            simpa using hc
          · rcases ih c hc with h | ⟨t', ht', hc'⟩
            · exact Or.inl h
            · exact Or.inr ⟨t', List.mem_cons_of_mem t ht', hc'⟩

theorem renderPart_chars (p : String × List String)
    (hd : goodToken p.1 = true) (hs : ∀ t ∈ p.2, goodToken t = true) :
    ∀ c ∈ (renderPart p).data,
      c = ' ' ∨ (isPySpace c = false ∧ ¬c = ';') := by
  intro c hc
  rw [renderPart_data] at hc
  simp only [List.mem_append, List.mem_cons] at hc
  rcases hc with hc | hc | hc
  · exact Or.inr ((goodToken_spec p.1 hd).2 c hc)
  · exact Or.inl hc
  · rcases joinSpace_chars p.2 c hc with h | ⟨t, ht, hc'⟩
    · exact Or.inl h
    · exact Or.inr ((goodToken_spec t (hs t ht)).2 c hc')

theorem renderPart_no_semi (p : String × List String)
    (hd : goodToken p.1 = true) (hs : ∀ t ∈ p.2, goodToken t = true) :
    ∀ c ∈ (renderPart p).data, ¬c = ';' := by
  intro c hc
  rcases renderPart_chars p hd hs c hc with h | ⟨_, h⟩
  · subst h
    decide
  · exact h

theorem pyStrip_empty : pyStrip "" = "" := rfl

theorem pyStrip_cons_space (l : List Char) :
    pyStrip ⟨' ' :: l⟩ = pyStrip ⟨l⟩ := by
  unfold pyStrip
  simp [List.dropWhile_cons, isPySpace]

theorem pyStrip_of_ends (l : List Char)
    (hh : ∀ c, l.head? = some c → isPySpace c = false)
    (hl : ∀ c, l.getLast? = some c → isPySpace c = false) :
    pyStrip ⟨l⟩ = ⟨l⟩ := by
  unfold pyStrip
  have h1 : l.dropWhile isPySpace = l := by
    cases l with
    | nil => rfl
    | cons a t =>
        rw [List.dropWhile_cons, if_neg]
        simp [hh a rfl]
  rw [h1]
  have h2 : l.reverse.dropWhile isPySpace = l.reverse := by
    cases hr : l.reverse with
    | nil => rfl
    | cons a t =>
        rw [List.dropWhile_cons, if_neg]
        have ha : l.getLast? = some a := by
          rw [← List.head?_reverse, hr]
          rfl
        simp [hl a ha]
  rw [h2]
  simp

theorem mem_of_getLast? {α : Type} :
    ∀ {l : List α} {a : α}, l.getLast? = some a → a ∈ l := by
  intro l
  induction l with
  | nil => intro a h; simp at h
  | cons x xs ih =>
      intro a h
      cases xs with
      | nil =>
          simp [List.getLast?] at h
          simp [h]
      | cons y ys =>
          rw [List.getLast?_cons_cons] at h
          exact List.mem_cons_of_mem x (ih h)

theorem joinSpace_data_ne_nil (srcs : List String)
    (h : ∀ t ∈ srcs, goodToken t = true) (hne : srcs ≠ []) :
    (joinSep " " srcs).data ≠ [] := by
  cases srcs with
  | nil => exact absurd rfl hne
  | cons t rest =>
      have ht := (goodToken_spec t (h t (List.mem_cons_self t rest))).1
      cases rest with
      | nil => simpa [joinSep] using ht
      | cons u us =>
          show ((t ++ " " ++ joinSep " " (u :: us)).data ≠ [])
          rw [String.data_append, String.data_append]
          simp [ht]

theorem joinSpace_getLast (srcs : List String)
    (h : ∀ t ∈ srcs, goodToken t = true) :
    ∀ c, (joinSep " " srcs).data.getLast? = some c →
      isPySpace c = false := by
  induction srcs with
  | nil => intro c hc; simp [joinSep] at hc
  | cons t rest ih =>
      intro c hc
      cases rest with
      | nil =>
          have := mem_of_getLast? (by simpa [joinSep] using hc)
          exact ((goodToken_spec t (h t (by simp))).2 c this).1
      | cons u us =>
          rw [show joinSep " " (t :: u :: us) =
                t ++ " " ++ joinSep " " (u :: us) from rfl,
            String.data_append, String.data_append,
            List.append_assoc, List.getLast?_append,
            List.getLast?_append] at hc
          have hJ : (joinSep " " (u :: us)).data ≠ [] :=
            joinSpace_data_ne_nil (u :: us)
              (fun t' ht' => h t' (List.mem_cons_of_mem t ht')) (by simp)
          cases hj : (joinSep " " (u :: us)).data.getLast? with
          | none => exact absurd (List.getLast?_eq_none_iff.mp hj) hJ
          | some j =>
              rw [hj] at hc
              simp only [Option.or] at hc
              cases hc
              exact ih (fun t' ht' => h t' (List.mem_cons_of_mem t ht')) c
                (by rw [hj])

theorem joinSpace_split (srcs : List String)
    (h : ∀ t ∈ srcs, goodToken t = true) (hne : srcs ≠ []) :
    splitOnPred isPySpace ((joinSep " " srcs).data) =
      srcs.map String.data := by
  induction srcs with
  | nil => exact absurd rfl hne
  | cons t rest ih =>
      have ht := goodToken_spec t (h t (List.mem_cons_self t rest))
      cases rest with
      | nil =>
          show splitOnPred isPySpace t.data = [t.data]
          exact splitOnPred_no_sep _ _ (fun c hc => (ht.2 c hc).1)
      | cons u us =>
          rw [show joinSep " " (t :: u :: us) =
                t ++ " " ++ joinSep " " (u :: us) from rfl,
            String.data_append, String.data_append]
          have hrest := ih (fun t' ht' => h t' (List.mem_cons_of_mem t ht'))
            (by simp)
          rw [show (" ".data : List Char) = [' '] from rfl,
            List.append_assoc, List.singleton_append,
            splitOnPred_append isPySpace _ ' ' rfl t.data
              (fun c hc => (ht.2 c hc).1),
            hrest]
          rfl

/-- `⟨s.data⟩` is `s` (structure eta). -/
theorem string_mk_data (s : String) : (⟨s.data⟩ : String) = s := rfl

theorem renderPart_split (p : String × List String)
    (hd : goodToken p.1 = true) (hne : p.2 ≠ [])
    (hs : ∀ t ∈ p.2, goodToken t = true) :
    pySplitWhitespace (renderPart p) = p.1 :: p.2 := by
  have hd' := goodToken_spec p.1 hd
  unfold pySplitWhitespace
  rw [renderPart_data,
    splitOnPred_append isPySpace _ ' ' rfl p.1.data
      (fun c hc => (hd'.2 c hc).1),
    joinSpace_split p.2 hs hne]
  have hfilter : (p.1.data :: p.2.map String.data).filter
      (fun l => l ≠ []) = p.1.data :: p.2.map String.data := by
    rw [List.filter_eq_self]
    intro a ha
    simp only [List.mem_cons, List.mem_map] at ha
    rcases ha with rfl | ⟨t, ht, rfl⟩
    · simpa using hd'.1
    · simpa using (goodToken_spec t (hs t ht)).1
  rw [hfilter]
  show (⟨p.1.data⟩ : String) ::
      (p.2.map String.data).map (fun l => (⟨l⟩ : String)) = p.1 :: p.2
  rw [string_mk_data, List.map_map]
  have hcomp : ((fun l => (⟨l⟩ : String)) ∘ String.data) = id :=
    funext string_mk_data
  rw [hcomp, List.map_id]

theorem renderPart_ne_empty (p : String × List String)
    (hd : goodToken p.1 = true) : renderPart p ≠ "" := by
  intro h
  have := congrArg String.data h
  rw [renderPart_data] at this
  exact (goodToken_spec p.1 hd).1 (by
    rcases List.append_eq_nil.mp (this.trans rfl) with ⟨h1, _⟩
    exact h1)

theorem renderPart_strip (p : String × List String)
    (hd : goodToken p.1 = true) (hne : p.2 ≠ [])
    (hs : ∀ t ∈ p.2, goodToken t = true) :
    pyStrip (renderPart p) = renderPart p := by
  have hd' := goodToken_spec p.1 hd
  have hmain := pyStrip_of_ends (renderPart p).data ?hh ?hl
  · simpa [string_mk_data] using hmain
  case hh =>
    intro c hc
    rw [renderPart_data] at hc
    obtain ⟨a, t, hat⟩ : ∃ a t, p.1.data = a :: t := by
      cases hpd : p.1.data with
      | nil => exact absurd hpd hd'.1
      | cons a t => exact ⟨a, t, rfl⟩
    rw [hat] at hc
    simp only [List.cons_append, List.head?_cons] at hc
    have hac : a = c := by simpa using hc
    subst hac
    exact (hd'.2 a (by rw [hat]; exact List.mem_cons_self a t)).1
  case hl =>
    intro c hc
    rw [renderPart_data, List.getLast?_append] at hc
    have hJ : (joinSep " " p.2).data ≠ [] :=
      joinSpace_data_ne_nil p.2 hs hne
    cases hj : (joinSep " " p.2).data.getLast? with
    | none => exact absurd (List.getLast?_eq_none_iff.mp hj) hJ
    | some j =>
        have hcons : (' ' :: (joinSep " " p.2).data).getLast? = some j := by
          cases hpd : (joinSep " " p.2).data with
          | nil => exact absurd hpd hJ
          | cons b bs =>
              rw [List.getLast?_cons_cons, ← hpd, hj]
        rw [hcons] at hc
        simp only [Option.or] at hc
        cases hc
        exact joinSpace_getLast p.2 hs c (by rw [hj])

theorem parseStep_render (acc : Dict (List String))
    (p : String × List String) (hd : goodToken p.1 = true)
    (hne : p.2 ≠ []) (hs : ∀ t ∈ p.2, goodToken t = true) :
    CSPGenerator.parseStep acc (renderPart p) = acc.set p.1 p.2 := by
  unfold CSPGenerator.parseStep
  rw [renderPart_strip p hd hne hs, if_neg (renderPart_ne_empty p hd),
    renderPart_split p hd hne hs]

theorem parseStep_pad (acc : Dict (List String)) (s : String) :
    CSPGenerator.parseStep acc ⟨' ' :: s.data⟩ =
      CSPGenerator.parseStep acc s := by
  unfold CSPGenerator.parseStep
  rw [pyStrip_cons_space, string_mk_data]

theorem parseStep_blank (acc : Dict (List String)) :
    CSPGenerator.parseStep acc "" = acc := rfl

theorem setList_of_not_mem_keys {α : Type} (k : String) (v : α) :
    ∀ e : List (String × α), k ∉ e.map Prod.fst →
      Dict.setList e k v = e ++ [(k, v)] := by
  intro e
  induction e with
  | nil => intro _; rfl
  | cons p rest ih =>
      intro h
      obtain ⟨k', v'⟩ := p
      simp only [List.map_cons, List.mem_cons, not_or] at h
      show Dict.setList ((k', v') :: rest) k v = _
      rw [show Dict.setList ((k', v') :: rest) k v =
            if k' = k then (k', v) :: rest
            else (k', v') :: Dict.setList rest k v from rfl,
        if_neg (fun hp => h.1 hp.symm), ih h.2]
      rfl

theorem foldl_set_append {α : Type} :
    ∀ (e : List (String × α)) (acc : List (String × α)),
      (e.map Prod.fst).Nodup →
      (∀ k ∈ e.map Prod.fst, k ∉ acc.map Prod.fst) →
      List.foldl (fun (a : Dict α) p => a.set p.1 p.2) ⟨acc⟩ e =
        ⟨acc ++ e⟩ := by
  intro e
  induction e with
  | nil => intro acc _ _; simp
  | cons p rest ih =>
      intro acc hnodup hdisj
      obtain ⟨k, v⟩ := p
      have hk : k ∉ acc.map Prod.fst :=
        hdisj k (by simp)
      have hset : (Dict.set ⟨acc⟩ k v) = ⟨acc ++ [(k, v)]⟩ := by
        show (⟨Dict.setList acc k v⟩ : Dict α) = _
        rw [setList_of_not_mem_keys k v acc hk]
      simp only [List.foldl_cons, hset]
      rw [ih (acc ++ [(k, v)])
        (by simpa using hnodup.of_cons)
        ?_]
      · simp
      · intro k' hk'
        simp only [List.map_append, List.mem_append, List.map_cons,
          List.mem_singleton, not_or]
        refine ⟨hdisj k' (by simp [hk']), ?_⟩
        simp only [List.map_cons, List.nodup_cons] at hnodup
        intro hkk
        have hkk' : k' = k := by simpa using hkk
        rw [hkk'] at hk'
        exact hnodup.1 hk'

theorem fold_parseStep_zip
    (qs : List (String × (String × List String))) :
    ∀ acc : Dict (List String),
      (∀ q ∈ qs, ∀ a : Dict (List String),
        CSPGenerator.parseStep a q.1 = a.set q.2.1 q.2.2) →
      List.foldl CSPGenerator.parseStep acc (qs.map Prod.fst) =
        List.foldl (fun (a : Dict (List String)) p => a.set p.1 p.2)
          acc (qs.map Prod.snd) := by
  induction qs with
  | nil => intro acc _; rfl
  | cons q rest ih =>
      intro acc h
      simp only [List.map_cons, List.foldl_cons,
        h q (List.mem_cons_self q rest) acc]
      exact ih _ (fun q' hq' => h q' (List.mem_cons_of_mem q hq'))

theorem split_gen :
    ∀ (xs : List String) (x : String),
      (∀ p ∈ x :: xs, ∀ c ∈ p.data, ¬c = ';') →
      splitOnChar ';' ((joinSep "; " (x :: xs) ++ ";").data) =
        x.data :: (xs.map (fun p => ' ' :: p.data) ++ [[]]) := by
  intro xs
  induction xs with
  | nil =>
      intro x h
      rw [show joinSep "; " [x] = x from rfl, String.data_append,
        show (";".data : List Char) = [';'] from rfl,
        splitOnChar_eq_splitOnPred,
        splitOnPred_append (fun c => decide (c = ';')) [] ';' (by simp)
          x.data (fun c hc => by simpa using h x (by simp) c hc)]
      rfl
  | cons y ys ih =>
      intro x h
      rw [show joinSep "; " (x :: y :: ys) =
            x ++ "; " ++ joinSep "; " (y :: ys) from rfl,
        String.data_append, String.data_append, String.data_append,
        show ("; ".data : List Char) = [';', ' '] from rfl,
        show (";".data : List Char) = [';'] from rfl]
      have hx : ∀ c ∈ x.data, (decide (c = ';')) = false :=
        fun c hc => by simpa using h x (by simp) c hc
      have hrest := ih y (fun p hp => h p (List.mem_cons_of_mem x hp))
      have hassoc : x.data ++ [';', ' '] ++
            (joinSep "; " (y :: ys)).data ++ [';'] =
          x.data ++
            ';' :: (' ' :: ((joinSep "; " (y :: ys)).data ++ [';'])) := by
        simp
      rw [hassoc, splitOnChar_eq_splitOnPred,
        splitOnPred_append (fun c => decide (c = ';'))
          (' ' :: ((joinSep "; " (y :: ys)).data ++ [';'])) ';'
          (by simp) x.data hx]
      rw [String.data_append,
        show (";".data : List Char) = [';'] from rfl,
        splitOnChar_eq_splitOnPred] at hrest
      rw [splitOnPred_cons_head _ ' ' _ (by simp) _ _ hrest]
      rfl

theorem parse_generated (e : List (String × List String))
    (hne : e ≠ [])
    (hgood : ∀ p ∈ e, goodToken p.1 = true ∧ p.2 ≠ [] ∧
      ∀ t ∈ p.2, goodToken t = true)
    (hnodup : (e.map Prod.fst).Nodup) :
    CSPGenerator.parse_csp (joinSep "; " (e.map renderPart) ++ ";") =
      ⟨e⟩ := by
  obtain ⟨p0, erest, rfl⟩ : ∃ p0 erest, e = p0 :: erest := by
    cases e with
    | nil => exact absurd rfl hne
    | cons a b => exact ⟨a, b, rfl⟩
  have hsne : joinSep "; " ((p0 :: erest).map renderPart) ++ ";" ≠ "" := by
    intro hcontra
    have hdata := congrArg String.data hcontra
    rw [String.data_append] at hdata
    simp at hdata
  unfold CSPGenerator.parse_csp
  rw [if_neg hsne]
  have hns : ∀ p ∈ renderPart p0 :: erest.map renderPart,
      ∀ c ∈ p.data, ¬c = ';' := by
    intro p hp c hc
    simp only [List.mem_cons, List.mem_map] at hp
    rcases hp with rfl | ⟨q, hq, rfl⟩
    · exact renderPart_no_semi p0 (hgood p0 (by simp)).1
        (hgood p0 (by simp)).2.2 c hc
    · exact renderPart_no_semi q (hgood q (by simp [hq])).1
        (hgood q (by simp [hq])).2.2 c hc
  have hsplit := split_gen (erest.map renderPart) (renderPart p0) hns
  rw [List.map_cons]
  unfold pySplitSemicolon
  rw [hsplit]
  have hmapmk : ((renderPart p0).data ::
        ((erest.map renderPart).map (fun p => ' ' :: p.data) ++ [[]])).map
          (fun l => (⟨l⟩ : String)) =
      ((renderPart p0, p0) ::
        erest.map (fun q => ((⟨' ' :: (renderPart q).data⟩ : String), q))).map
          Prod.fst ++ [""] := by
    simp [List.map_map, string_mk_data, Function.comp]
  rw [hmapmk, List.foldl_append]
  have hqs : ∀ q ∈ (renderPart p0, p0) ::
        erest.map (fun q => ((⟨' ' :: (renderPart q).data⟩ : String), q)),
      ∀ a : Dict (List String),
        CSPGenerator.parseStep a q.1 = a.set q.2.1 q.2.2 := by
    intro q hq a
    simp only [List.mem_cons, List.mem_map] at hq
    rcases hq with rfl | ⟨q', hq', rfl⟩
    · exact parseStep_render a p0 (hgood p0 (by simp)).1
        (hgood p0 (by simp)).2.1 (hgood p0 (by simp)).2.2
    · exact (parseStep_pad a (renderPart q')).trans
        (parseStep_render a q' (hgood q' (by simp [hq'])).1
          (hgood q' (by simp [hq'])).2.1 (hgood q' (by simp [hq'])).2.2)
  rw [fold_parseStep_zip _ _ hqs]
  have hsnd : ((renderPart p0, p0) ::
        erest.map (fun q => ((⟨' ' :: (renderPart q).data⟩ : String), q))).map
          Prod.snd = p0 :: erest := by
    simp only [List.map_cons, List.map_map]
    refine congrArg (p0 :: ·) ?_
    exact (List.map_congr_left (fun q _ => rfl)).trans (List.map_id erest)
  rw [hsnd]
  have hfold := foldl_set_append (α := List String) (p0 :: erest) []
    hnodup (by simp)
  rw [hfold]
  simp only [List.foldl_cons, List.foldl_nil, parseStep_blank]
  simp

theorem filterMap_render (e : List (String × List String))
    (h : ∀ p ∈ e, p.2 ≠ []) :
    e.filterMap (fun p => if p.2 = [] then none else some (renderPart p)) =
      e.map renderPart := by
  induction e with
  | nil => rfl
  | cons p rest ih =>
      rw [List.filterMap_cons]
      simp only [if_neg (h p (List.mem_cons_self p rest))]
      rw [ih (fun q hq => h q (List.mem_cons_of_mem p hq))]
      rfl

theorem joinSep_cons_ne_empty (sep x : String) (xs : List String)
    (hx : x ≠ "") : joinSep sep (x :: xs) ≠ "" := by
  have hxd : x.data ≠ [] := fun hd => hx (String.ext_iff.mpr (hd.trans rfl))
  cases xs with
  | nil => exact hx
  | cons y ys =>
      intro hc
      have hdata := congrArg String.data hc
      rw [show joinSep sep (x :: y :: ys) =
            x ++ sep ++ joinSep sep (y :: ys) from rfl,
        String.data_append, String.data_append] at hdata
      rw [show ("" : String).data = [] from rfl] at hdata
      rcases List.append_eq_nil.mp hdata with ⟨h1, _⟩
      rcases List.append_eq_nil.mp h1 with ⟨h2, _⟩
      exact hxd h2

theorem generate_eq (g : CSPGenerator) (h : RoundTrippable g) :
    CSPGenerator.generate_csp g =
      (g, joinSep "; " (g.directives.entries.map renderPart) ++ ";") := by
  obtain ⟨hne, hnodup, hgood, hb1, hb2⟩ := h
  obtain ⟨p0, erest, he⟩ : ∃ a b, g.directives.entries = a :: b := by
    cases hD : g.directives.entries with
    | nil => exact absurd hD hne
    | cons a b => exact ⟨a, b, rfl⟩
  have hheader : joinSep "; " (g.directives.entries.map renderPart) ≠ "" := by
    rw [he, List.map_cons]
    exact joinSep_cons_ne_empty _ _ _
      (renderPart_ne_empty p0 (hgood p0 (by rw [he]; simp)).1)
  simp only [CSPGenerator.generate_csp, hb1, hb2, ne_eq, hne,
    not_false_eq_true, not_true_eq_false, if_false, if_true]
  rw [filterMap_render _ (fun p hp => (hgood p hp).2.1), if_neg hheader]

/-! ## Claim C4 — round-trip -/

/-- Claim C4 fails as stated: on the Policy State whose only directive is
`script-src` with an empty source list (exactly the state of
`test_generate_csp_empty_directives`), `generate_csp` emits the empty
string, `_parse_csp` of that is the empty map, and the directive is lost —
the parsed mapping is not the one the state holds. -/
theorem C4_counterexample :
    (CSPGenerator.generate_csp
      { hashes := ⟨[], [], []⟩
        directives := ⟨[("script-src", [])]⟩
        stats := ⟨[]⟩ }).2 = "" ∧
    CSPGenerator.parse_csp
        (CSPGenerator.generate_csp
          { hashes := ⟨[], [], []⟩
            directives := ⟨[("script-src", [])]⟩
            stats := ⟨[]⟩ }).2 = ⟨[]⟩ ∧
    (CSPGenerator.generate_csp
      { hashes := ⟨[], [], []⟩
        directives := ⟨[("script-src", [])]⟩
        stats := ⟨[]⟩ }).1.directives = ⟨[("script-src", [])]⟩ := by
  exact ⟨rfl, rfl, rfl⟩

/-- Claim C4 amended: for every Policy State with at least one directive,
distinct directive names, every name and source token non-empty and free of
whitespace and `";"`, every source list non-empty, and the `script-src` /
`style-src` Hash Buckets empty, parsing the generated policy string
reproduces exactly the directive map the state holds (and `generate_csp`
leaves the state unchanged). -/
theorem C4_round_trip (g : CSPGenerator) (h : RoundTrippable g) :
    CSPGenerator.parse_csp (CSPGenerator.generate_csp g).2 =
      g.directives ∧
    (CSPGenerator.generate_csp g).1 = g := by
  have hg := generate_eq g h
  obtain ⟨hne, hnodup, hgood, hb1, hb2⟩ := h
  rw [hg]
  refine ⟨?_, rfl⟩
  have hp := parse_generated g.directives.entries hne hgood
    (by simpa [Dict.keys] using hnodup)
  exact hp

/-- Witness for C4: a two-directive state round-trips exactly. -/
theorem C4_witness :
    CSPGenerator.parse_csp
        (CSPGenerator.generate_csp
          { hashes := ⟨[], [], []⟩
            directives := ⟨[("script-src", ["'self'", "https://a.example"]),
                            ("img-src", ["'self'"])]⟩
            stats := ⟨[]⟩ }).2 =
      ⟨[("script-src", ["'self'", "https://a.example"]),
        ("img-src", ["'self'"])]⟩ ∧
    (CSPGenerator.generate_csp
      { hashes := ⟨[], [], []⟩
        directives := ⟨[("script-src", ["'self'", "https://a.example"]),
                        ("img-src", ["'self'"])]⟩
        stats := ⟨[]⟩ }).1 =
      { hashes := ⟨[], [], []⟩
        directives := ⟨[("script-src", ["'self'", "https://a.example"]),
                        ("img-src", ["'self'"])]⟩
        stats := ⟨[]⟩ } :=
  C4_round_trip
    { hashes := ⟨[], [], []⟩
      directives := ⟨[("script-src", ["'self'", "https://a.example"]),
                      ("img-src", ["'self'"])]⟩
      stats := ⟨[]⟩ }
    (by decide)

end HashCSP
